import Mathlib

/-!
Shallow embedding of the simulation core of a grid-based snake game
(source: src/game.js). The embedded parts are the game constants, the
game state, input buffering, food placement by rejection sampling, the
simulation step `tick`, session control (`resetGame`, `togglePause`),
and the fixed-timestep driver loop of `animate`.

Modelling conventions:
  - JS numbers holding grid coordinates become `Int` (they can step one
    cell outside the grid before the wall check); counters become `Nat`;
    the real-valued clock of the driver becomes `ℚ`.
  - JS `Math.random()` is modelled by an explicit draw stream
    `draw : Nat → Cell` supplying the successive candidate cells of
    rejection sampling; operations that may place food take it as an
    argument.
  - The module-global mutable state of the source becomes the record
    `GameState` threaded through pure functions.
  - Rendering, DOM and localStorage calls are side effects outside the
    simulation state and are dropped; `localStorage` persistence of the
    high score is represented by the `highScore` field itself.
-/

namespace Snake3D

/-- Game constant from src/game.js: GRID_CELLS = 24 (24x24 grid). -/
def GRID_CELLS : Int := 24

/-- Game constant: START_LENGTH = 4. -/
def START_LENGTH : Nat := 4

/-- Game constant: BASE_SPEED = 6 moves per second. -/
def BASE_SPEED : Nat := 6

/-- Game constant: MAX_SPEED = 14 moves per second. -/
def MAX_SPEED : Nat := 14

/-- A grid cell, the pair of integers stored as an object {x, y} in the source. -/
structure Cell where
  x : Int
  y : Int
  deriving DecidableEq, Repr

/-- The mutable simulation state of src/game.js: the module-level variables
snake (tail-first, head-last), direction, inputQueue, food, isPaused,
isGameOver, score, highScore and movesPerSecond. -/
structure GameState where
  snake : List Cell
  direction : Cell
  inputQueue : List Cell
  food : Cell
  isPaused : Bool
  isGameOver : Bool
  score : Nat
  highScore : Nat
  movesPerSecond : Nat
  deriving DecidableEq, Repr

/-- The occupancy scan used both by the self-collision check of tick and by
the rejection test of placeFood: snake.some(s onto s.x === c.x and s.y === c.y). -/
def occupied (snake : List Cell) (c : Cell) : Bool :=
  snake.any fun s => s.x == c.x && s.y == c.y

/-- The do-while loop body of placeFood: draw candidate number tries, stop
when it is unoccupied or when the incremented try counter reaches 10000
(the source post-increments tries before testing tries less than 10000). -/
def placeFoodGo (snake : List Cell) (draw : Nat → Cell) (tries : Nat) : Cell :=
  let c := draw tries
  if h : occupied snake c = true ∧ tries + 1 < 10000 then
    placeFoodGo snake draw (tries + 1)
  else
    c
termination_by 10000 - tries
decreasing_by omega

/-- placeFood from src/game.js: rejection sampling over the draw stream,
starting at try counter 0, capped at 10000 draws. Returns the cell stored
into the food variable (the mesh repositioning is presentation). -/
def placeFood (snake : List Cell) (draw : Nat → Cell) : Cell :=
  placeFoodGo snake draw 0

/-- willReverse from src/game.js: the candidate direction is the exact
reverse of the current one. -/
def willReverse (curr next : Cell) : Bool :=
  curr.x + next.x == 0 && curr.y + next.y == 0

/-- The key-to-direction mapping of enqueueDirectionFromKey. -/
def dirFromKey (code : String) : Option Cell :=
  if code == "ArrowUp" || code == "KeyW" then some ⟨0, -1⟩
  else if code == "ArrowDown" || code == "KeyS" then some ⟨0, 1⟩
  else if code == "ArrowLeft" || code == "KeyA" then some ⟨-1, 0⟩
  else if code == "ArrowRight" || code == "KeyD" then some ⟨1, 0⟩
  else none

/-- enqueueDirectionFromKey from src/game.js: push the decoded direction
onto inputQueue only when the queue is empty and the direction does not
reverse the one currently in effect; otherwise leave the state unchanged. -/
def enqueueDirectionFromKey (code : String) (g : GameState) : GameState :=
  match dirFromKey code with
  | none => g
  | some next =>
      if g.inputQueue.length == 0 && !willReverse g.direction next then
        { g with inputQueue := g.inputQueue ++ [next] }
      else
        g

/-- The direction in effect after the consume step at the top of tick:
inputQueue.shift() result when the queue is nonempty, else the current
direction. -/
def consumedDirection (g : GameState) : Cell :=
  match g.inputQueue with
  | [] => g.direction
  | d :: _ => d

/-- The input queue after the consume step at the top of tick. -/
def dequeuedInput (g : GameState) : List Cell :=
  match g.inputQueue with
  | [] => []
  | _ :: rest => rest

/-- snake[snake.length - 1], the head cell (the snake list is tail-first,
head-last). On the empty list — never reached from a reset — the default
cell stands in for the undefined access of the source. -/
def headCell (g : GameState) : Cell :=
  g.snake.getLastD ⟨0, 0⟩

/-- newHead = head + direction, using the direction consumed this tick. -/
def nextHead (g : GameState) : Cell :=
  ⟨(headCell g).x + (consumedDirection g).x, (headCell g).y + (consumedDirection g).y⟩

/-- The wall-collision test of tick: newHead.x less than 0, or at least
GRID_CELLS, or likewise for y. -/
def outOfBounds (c : Cell) : Bool :=
  decide (c.x < 0) || decide (GRID_CELLS ≤ c.x) || decide (c.y < 0) || decide (GRID_CELLS ≤ c.y)

/-- tick from src/game.js: no-op when paused or over; otherwise consume one
queued input, compute newHead, end the game on wall or self collision
(both checked against the pre-move snake, tail included), else push the
new head, handle food (score, high score, speed, replacement) or drop the
tail, and finally end the game when the board is full. -/
def tick (draw : Nat → Cell) (g : GameState) : GameState :=
  if g.isPaused || g.isGameOver then g
  else
    let g1 : GameState :=
      { g with direction := consumedDirection g, inputQueue := dequeuedInput g }
    let newHead := nextHead g
    if outOfBounds newHead then
      { g1 with isGameOver := true }
    else if occupied g.snake newHead then
      { g1 with isGameOver := true }
    else
      let grown := g.snake ++ [newHead]
      let g2 : GameState :=
        if newHead.x == g.food.x && newHead.y == g.food.y then
          { g1 with
            snake := grown
            score := g.score + 1
            highScore := max g.highScore (g.score + 1)
            movesPerSecond := min MAX_SPEED (BASE_SPEED + (g.score + 1) / 4)
            food := placeFood grown draw }
        else
          { g1 with snake := grown.tail }
      if GRID_CELLS * GRID_CELLS ≤ (g2.snake.length : Int) then
        { g2 with isGameOver := true }
      else
        g2

/-- The initial snake built by resetGame: START_LENGTH cells in a horizontal
line, startX = floor(GRID_CELLS / 2) - floor(START_LENGTH / 2),
startY = floor(GRID_CELLS / 2). -/
def startSnake : List Cell :=
  (List.range START_LENGTH).map fun i =>
    ⟨GRID_CELLS / 2 - (START_LENGTH : Int) / 2 + i, GRID_CELLS / 2⟩

/-- resetGame from src/game.js: rebuild the snake at the centered start,
reset direction, input queue, flags, score and speed, then place food
against the fresh snake. The high score persists. -/
def resetGame (draw : Nat → Cell) (g : GameState) : GameState :=
  { g with
    snake := startSnake
    direction := ⟨1, 0⟩
    inputQueue := []
    isPaused := false
    isGameOver := false
    score := 0
    movesPerSecond := BASE_SPEED
    food := placeFood startSnake draw }

/-- togglePause from src/game.js: flip isPaused unless the game is over. -/
def togglePause (g : GameState) : GameState :=
  if g.isGameOver then g
  else { g with isPaused := !g.isPaused }

/-- The state owned by the animate loop: the lastTime and accumulator
module variables together with the game state the ticks act on. -/
structure DriverState where
  lastTime : ℚ
  accumulator : ℚ
  game : GameState
  deriving DecidableEq, Repr

/-- The while loop of animate: while the accumulator is at least the step
interval, subtract the interval and run one tick. The source runs it with
a positive interval (movesPerSecond is always between BASE_SPEED and
MAX_SPEED); the guard 0 < stepInterval makes the translation total where
the source would not terminate. -/
def accumLoop (stepInterval : ℚ) (f : GameState → GameState)
    (accumulator : ℚ) (g : GameState) : ℚ × GameState :=
  if h : 0 < stepInterval ∧ stepInterval ≤ accumulator then
    accumLoop stepInterval f (accumulator - stepInterval) (f g)
  else
    (accumulator, g)
termination_by ⌊accumulator / stepInterval⌋₊
decreasing_by
  have hs := h.1
  have ha := h.2
  have h1 : (accumulator - stepInterval) / stepInterval = accumulator / stepInterval - 1 := by
    field_simp
  have h2 : (1 : ℚ) ≤ accumulator / stepInterval := (one_le_div hs).mpr ha
  have h3 : 1 ≤ ⌊accumulator / stepInterval⌋₊ :=
    (Nat.one_le_floor_iff _).mpr h2
  rw [h1, Nat.floor_sub_one]
  omega

/-- One call of animate(ts) from src/game.js, restricted to simulation
state: dt is the frame delta in seconds clamped to 0.1, lastTime becomes
ts, the step interval is 1 / movesPerSecond read before the loop, dt is
added to the accumulator and the while loop drains it one tick per
subtraction. (The food bobbing, rendering and the re-registration of the
callback are presentation.) -/
def animateFrame (draw : Nat → Cell) (ts : ℚ) (d : DriverState) : DriverState :=
  let dt := min (1 / 10) ((ts - d.lastTime) / 1000)
  let stepInterval := 1 / (d.game.movesPerSecond : ℚ)
  let r := accumLoop stepInterval (tick draw) (d.accumulator + dt) d.game
  { lastTime := ts, accumulator := r.1, game := r.2 }

/-- The states reachable from a restart through the operations the page
exposes: key presses (directional intents), simulation ticks, the pause
toggle, and further restarts. Draw streams are arbitrary at every step. -/
inductive Reachable : GameState → Prop where
  | restart (draw : Nat → Cell) (g : GameState) : Reachable (resetGame draw g)
  | key (code : String) {g : GameState} : Reachable g → Reachable (enqueueDirectionFromKey code g)
  | step (draw : Nat → Cell) {g : GameState} : Reachable g → Reachable (tick draw g)
  | pause {g : GameState} : Reachable g → Reachable (togglePause g)

/-! Helper lemmas about the componentwise cell comparison and the
occupancy scan. -/

theorem cellEqb_iff (a b : Cell) : (a.x == b.x && a.y == b.y) = true ↔ a = b := by
  cases a; cases b
  simp [Cell.mk.injEq]

theorem occupied_iff_mem (s : List Cell) (c : Cell) : occupied s c = true ↔ c ∈ s := by
  simp only [occupied, List.any_eq_true]
  constructor
  · rintro ⟨a, ha, hb⟩
    rwa [(cellEqb_iff a c).mp hb] at ha
  · intro h
    exact ⟨c, h, (cellEqb_iff c c).mpr rfl⟩

theorem occupied_eq_false_iff (s : List Cell) (c : Cell) : occupied s c = false ↔ c ∉ s := by
  rw [← Bool.not_eq_true, not_iff_not]
  exact occupied_iff_mem s c

theorem tail_append_singleton {l : List Cell} (c : Cell) (h : l ≠ []) :
    (l ++ [c]).tail = l.tail ++ [c] := by
  cases l with
  | nil => exact absurd rfl h
  | cons a t => simp

/-- Concrete draw stream used by witnesses: every candidate is (5,5). -/
def drawFive : Nat → Cell := fun _ => ⟨5, 5⟩

/-- Concrete state used by the C1 witness: about to eat the food at (2,0). -/
def gEat : GameState :=
  ⟨[⟨0, 0⟩, ⟨1, 0⟩], ⟨1, 0⟩, [], ⟨2, 0⟩, false, false, 3, 3, 6⟩

/-- Concrete state used by the C2 witness: scenario 1 of the spec. -/
def gScenario1 : GameState :=
  ⟨[⟨8, 12⟩, ⟨9, 12⟩, ⟨10, 12⟩, ⟨11, 12⟩], ⟨1, 0⟩, [], ⟨0, 0⟩, false, false, 0, 0, 6⟩

/-- Concrete state used by the C3 witness: the head at (6,5) moving left
onto (5,5), the snake's current tail cell. -/
def gTailChase : GameState :=
  ⟨[⟨5, 5⟩, ⟨5, 6⟩, ⟨6, 6⟩, ⟨6, 5⟩], ⟨-1, 0⟩, [], ⟨0, 0⟩, false, false, 0, 0, 6⟩

/-- Concrete state used by the C4 witness: scenario 2 of the spec, head at
(23,12) moving right. -/
def gScenario2 : GameState :=
  ⟨[⟨20, 12⟩, ⟨21, 12⟩, ⟨22, 12⟩, ⟨23, 12⟩], ⟨1, 0⟩, [], ⟨0, 0⟩, false, false, 0, 0, 6⟩

/-- Field values of the eating branch of tick, shared by several proofs. -/
theorem tick_eat_fields (draw : Nat → Cell) (g : GameState)
    (hp : g.isPaused = false) (ho : g.isGameOver = false)
    (hw : outOfBounds (nextHead g) = false)
    (hs : occupied g.snake (nextHead g) = false)
    (hf : nextHead g = g.food) :
    (tick draw g).score = g.score + 1 ∧
    (tick draw g).highScore = max g.highScore (g.score + 1) ∧
    (tick draw g).movesPerSecond = min MAX_SPEED (BASE_SPEED + (g.score + 1) / 4) ∧
    (tick draw g).food = placeFood (g.snake ++ [nextHead g]) draw ∧
    (tick draw g).snake = g.snake ++ [nextHead g] ∧
    (tick draw g).snake.length = g.snake.length + 1 := by
  have hate : ((nextHead g).x == g.food.x && ((nextHead g).y == g.food.y)) = true :=
    (cellEqb_iff _ _).mpr hf
  simp only [tick, hp, ho, Bool.or_self, Bool.false_eq_true, if_false, hw, hs, hate, if_true]
  split <;> simp

/-- C1: in a Running state whose new head cell is inside the grid, off the
snake and on the food, the tick increments the score, raises the high
score to max(high score, score), sets the speed to
min(MAX_SPEED, BASE_SPEED + score / 4), re-places the food against the
grown snake, and keeps the tail, so the snake length grows by one. -/
theorem tick_onFood_grows (draw : Nat → Cell) (g : GameState)
    (hp : g.isPaused = false) (ho : g.isGameOver = false)
    (hw : outOfBounds (nextHead g) = false)
    (hs : occupied g.snake (nextHead g) = false)
    (hf : nextHead g = g.food) :
    (tick draw g).score = g.score + 1 ∧
    (tick draw g).highScore = max g.highScore (g.score + 1) ∧
    (tick draw g).movesPerSecond = min MAX_SPEED (BASE_SPEED + (g.score + 1) / 4) ∧
    (tick draw g).food = placeFood (g.snake ++ [nextHead g]) draw ∧
    (tick draw g).snake = g.snake ++ [nextHead g] ∧
    (tick draw g).snake.length = g.snake.length + 1 :=
  tick_eat_fields draw g hp ho hw hs hf

/-- Witness for C1: the state gEat (score 3, head (1,0) moving right onto
the food at (2,0)) satisfies the hypotheses, and one tick takes the score
to 4, the speed to 7 and the length from 2 to 3. -/
theorem tick_onFood_grows_witness :
    (tick drawFive gEat).score = gEat.score + 1 ∧
    (tick drawFive gEat).highScore = max gEat.highScore (gEat.score + 1) ∧
    (tick drawFive gEat).movesPerSecond = min MAX_SPEED (BASE_SPEED + (gEat.score + 1) / 4) ∧
    (tick drawFive gEat).food = placeFood (gEat.snake ++ [nextHead gEat]) drawFive ∧
    (tick drawFive gEat).snake = gEat.snake ++ [nextHead gEat] ∧
    (tick drawFive gEat).snake.length = gEat.snake.length + 1 :=
  tick_onFood_grows drawFive gEat rfl rfl (by decide) (by decide) (by decide)

/-- C2: in a Running state with an empty input buffer whose new head cell
is inside the grid, off the snake and off the food, one tick appends the
new head and removes the tail cell, leaving the length unchanged. -/
theorem tick_plainMove_translates (draw : Nat → Cell) (g : GameState)
    (hp : g.isPaused = false) (ho : g.isGameOver = false)
    (hq : g.inputQueue = []) (hne : g.snake ≠ [])
    (hw : outOfBounds (nextHead g) = false)
    (hs : occupied g.snake (nextHead g) = false)
    (hf : nextHead g ≠ g.food) :
    (tick draw g).snake = g.snake.tail ++ [nextHead g] ∧
    (tick draw g).snake.length = g.snake.length := by
  have hate : ((nextHead g).x == g.food.x && ((nextHead g).y == g.food.y)) = false := by
    rw [← Bool.not_eq_true, (cellEqb_iff _ _)]
    exact hf
  simp only [tick, hp, ho, Bool.or_self, Bool.false_eq_true, if_false, hw, hs, hate, if_true]
  have hlen : (g.snake ++ [nextHead g]).tail.length = g.snake.length := by
    rw [List.length_tail, List.length_append]
    simp
  rw [tail_append_singleton _ hne]
  have hlen2 : (g.snake.tail ++ [nextHead g]).length = g.snake.length := by
    rw [List.length_append, List.length_tail]
    simp only [List.length_singleton]
    have := List.length_pos.mpr hne
    omega
  split <;> simp [hlen2]

/-- Witness for C2: scenario 1 of the spec. From the snake
[(8,12),(9,12),(10,12),(11,12)] heading right with an empty buffer, one
tick yields [(9,12),(10,12),(11,12),(12,12)], and the vacated tail cell
(8,12) is no longer on the snake. -/
theorem tick_plainMove_translates_witness :
    (tick drawFive gScenario1).snake = [⟨9, 12⟩, ⟨10, 12⟩, ⟨11, 12⟩, ⟨12, 12⟩] ∧
    (⟨8, 12⟩ : Cell) ∉ (tick drawFive gScenario1).snake ∧
    (tick drawFive gScenario1).snake.length = gScenario1.snake.length := by
  have h := tick_plainMove_translates drawFive gScenario1 rfl rfl rfl (by decide)
    (by decide) (by decide) (by decide)
  refine ⟨?_, ?_, h.2⟩
  · rw [h.1]; decide
  · rw [h.1]; decide

/-- C3: the self-collision check runs against the pre-append snake, the
current tail cell included: in a Running state whose new head cell lies
on any current snake cell the tick ends the game and leaves the snake
unchanged, so moving into the cell the tail is about to vacate is a
collision, not a legal move. -/
theorem tick_selfCollision_includes_tail (draw : Nat → Cell) (g : GameState)
    (hp : g.isPaused = false) (ho : g.isGameOver = false)
    (hmem : nextHead g ∈ g.snake) :
    (tick draw g).isGameOver = true ∧ (tick draw g).snake = g.snake := by
  have hs : occupied g.snake (nextHead g) = true := (occupied_iff_mem _ _).mpr hmem
  by_cases hw : outOfBounds (nextHead g) = true
  · simp only [tick, hp, ho, Bool.or_self, Bool.false_eq_true, if_false, hw, if_true]
    exact ⟨trivial, trivial⟩
  · rw [Bool.not_eq_true] at hw
    simp only [tick, hp, ho, Bool.or_self, Bool.false_eq_true, if_false, hw, hs, if_true]
    exact ⟨trivial, trivial⟩

/-- Witness for C3: in gTailChase the head at (6,5) moves left onto (5,5),
exactly the snake's current tail cell, and the session becomes GameOver
with the snake unchanged. -/
theorem tick_selfCollision_includes_tail_witness :
    (tick drawFive gTailChase).isGameOver = true ∧
    (tick drawFive gTailChase).snake = gTailChase.snake :=
  tick_selfCollision_includes_tail drawFive gTailChase rfl rfl (by decide)

/-- C4: in a Running state whose new head cell lies outside the grid
bounds, the tick ends the game and leaves the snake exactly as it was
(no cell appended or removed). -/
theorem tick_wallCollision_gameOver (draw : Nat → Cell) (g : GameState)
    (hp : g.isPaused = false) (ho : g.isGameOver = false)
    (hw : outOfBounds (nextHead g) = true) :
    (tick draw g).isGameOver = true ∧ (tick draw g).snake = g.snake := by
  simp only [tick, hp, ho, Bool.or_self, Bool.false_eq_true, if_false, hw, if_true]
  exact ⟨trivial, trivial⟩

/-- Witness for C4: scenario 2 of the spec. Head at (23,12) heading right;
the new head (24,12) is out of bounds, the session becomes GameOver and
the snake is unchanged. -/
theorem tick_wallCollision_gameOver_witness :
    (tick drawFive gScenario2).isGameOver = true ∧
    (tick drawFive gScenario2).snake = gScenario2.snake :=
  tick_wallCollision_gameOver drawFive gScenario2 rfl rfl (by decide)

/-- Helper: with an empty input queue, a tick never changes the active
direction (every branch of tick writes back the consumed direction, which
is the current one when nothing is buffered). -/
theorem tick_direction_of_emptyQueue (draw : Nat → Cell) (g : GameState)
    (hq : g.inputQueue = []) :
    (tick draw g).direction = g.direction := by
  have hc : consumedDirection g = g.direction := by simp [consumedDirection, hq]
  by_cases hpo : (g.isPaused || g.isGameOver) = true
  · simp [tick, hpo]
  · rw [Bool.not_eq_true] at hpo
    by_cases hw : outOfBounds (nextHead g) = true
    · simp [tick, hpo, hw, hc]
    · rw [Bool.not_eq_true] at hw
      by_cases hs : occupied g.snake (nextHead g) = true
      · simp [tick, hpo, hw, hs, hc]
      · rw [Bool.not_eq_true] at hs
        by_cases hate : ((nextHead g).x == g.food.x && ((nextHead g).y == g.food.y)) = true
        · simp only [tick, hpo, hw, hs, hate, Bool.or_self, Bool.false_eq_true, if_false, if_true]
          split <;> simp [hc]
        · rw [Bool.not_eq_true] at hate
          simp only [tick, hpo, hw, hs, hate, Bool.or_self, Bool.false_eq_true, if_false, if_true]
          split <;> simp [hc]

/-- C6: submitting a directional intent stores it only when the buffer is
empty and the intent does not reverse the active direction, and drops it
otherwise; the buffer therefore never exceeds one intent, and submitting
the reverse of the active direction leaves the buffer empty and the
active direction unchanged after the next tick. -/
theorem enqueue_policy (g : GameState) (code : String) (next : Cell)
    (h : dirFromKey code = some next) :
    ((g.inputQueue = [] ∧ willReverse g.direction next = false) →
        (enqueueDirectionFromKey code g).inputQueue = [next]) ∧
    (¬(g.inputQueue = [] ∧ willReverse g.direction next = false) →
        (enqueueDirectionFromKey code g).inputQueue = g.inputQueue) ∧
    (g.inputQueue.length ≤ 1 → (enqueueDirectionFromKey code g).inputQueue.length ≤ 1) ∧
    (willReverse g.direction next = true → g.inputQueue = [] →
        (enqueueDirectionFromKey code g).inputQueue = [] ∧
        ∀ draw, (tick draw (enqueueDirectionFromKey code g)).direction = g.direction) := by
  refine ⟨?_, ?_, ?_, ?_⟩
  · rintro ⟨hq, hrev⟩
    simp [enqueueDirectionFromKey, h, hq, hrev]
  · intro hn
    by_cases hq : g.inputQueue = []
    · have hrev : willReverse g.direction next = true := by
        rcases Bool.eq_false_or_eq_true (willReverse g.direction next) with ht | hf
        · exact ht
        · exact absurd ⟨hq, hf⟩ hn
      simp [enqueueDirectionFromKey, h, hq, hrev]
    · have hlen : g.inputQueue.length ≠ 0 := by
        simpa [List.length_eq_zero] using hq
      simp [enqueueDirectionFromKey, h, hlen]
  · intro hle
    simp only [enqueueDirectionFromKey, h]
    split
    · next hcond =>
        have hlen : g.inputQueue.length = 0 := by
          have := (Bool.and_eq_true _ _).mp hcond
          simpa using this.1
        simp [hlen]
    · exact hle
  · intro hrev hq
    have hdrop : enqueueDirectionFromKey code g = g := by
      simp [enqueueDirectionFromKey, h, hq, hrev]
    refine ⟨by rw [hdrop, hq], fun draw => ?_⟩
    rw [hdrop]
    exact tick_direction_of_emptyQueue draw g hq

/-- Witness for C6: with active direction (1,0), the ArrowLeft key decodes
to (-1,0), its exact reverse; submitting it to gScenario1 (empty buffer)
leaves the buffer empty and one subsequent tick keeps direction (1,0). -/
theorem enqueue_policy_witness :
    (enqueueDirectionFromKey "ArrowLeft" gScenario1).inputQueue = [] ∧
    (tick drawFive (enqueueDirectionFromKey "ArrowLeft" gScenario1)).direction =
      gScenario1.direction := by
  have h := (enqueue_policy gScenario1 "ArrowLeft" ⟨-1, 0⟩ rfl).2.2.2 (by decide) rfl
  exact ⟨h.1, h.2 drawFive⟩

/-- Counterexample for C8: the claimed start snake [(8,12),(9,12),(10,12),(11,12)]
is not what a restart produces. With startX = floor(24/2) - floor(4/2) = 10,
resetGame builds [(10,12),(11,12),(12,12),(13,12)] instead, shown here at a
concrete pre-restart state and draw stream. -/
theorem resetGame_startSnake_counterexample :
    (resetGame drawFive gScenario1).snake = [⟨10, 12⟩, ⟨11, 12⟩, ⟨12, 12⟩, ⟨13, 12⟩] ∧
    (resetGame drawFive gScenario1).snake ≠ [⟨8, 12⟩, ⟨9, 12⟩, ⟨10, 12⟩, ⟨11, 12⟩] := by
  constructor <;> decide

/-- C8 (amended): in every session state, a restart reinitializes the game:
the snake becomes the 4-cell horizontal line centered on the grid —
[(10,12),(11,12),(12,12),(13,12)] — with direction (1,0), score 0, speed
BASE_SPEED = 6, the input buffer cleared, the session Running (neither
paused nor over), and the food freshly placed against the new snake. -/
theorem resetGame_reinitializes (draw : Nat → Cell) (g : GameState) :
    (resetGame draw g).snake = [⟨10, 12⟩, ⟨11, 12⟩, ⟨12, 12⟩, ⟨13, 12⟩] ∧
    (resetGame draw g).direction = ⟨1, 0⟩ ∧
    (resetGame draw g).inputQueue = [] ∧
    (resetGame draw g).isPaused = false ∧
    (resetGame draw g).isGameOver = false ∧
    (resetGame draw g).score = 0 ∧
    (resetGame draw g).movesPerSecond = BASE_SPEED ∧
    (resetGame draw g).food = placeFood startSnake draw := by
  refine ⟨?_, rfl, rfl, rfl, rfl, rfl, rfl, rfl⟩
  show startSnake = _
  decide

/-- Equation lemma restating one unfolding of the placeFood loop. -/
theorem placeFoodGo_unfold (snake : List Cell) (draw : Nat → Cell) (tries : Nat) :
    placeFoodGo snake draw tries =
      if occupied snake (draw tries) = true ∧ tries + 1 < 10000 then
        placeFoodGo snake draw (tries + 1)
      else
        draw tries := by
  rw [placeFoodGo]
  split <;> rfl

/-- Helper: when every candidate the stream offers is occupied, the loop
runs the full 10000 draws and returns the last one, draw 9999. -/
theorem placeFoodGo_all_occupied (snake : List Cell) (draw : Nat → Cell)
    (hall : ∀ t, occupied snake (draw t) = true) :
    ∀ fuel tries, tries + fuel = 9999 → placeFoodGo snake draw tries = draw 9999 := by
  intro fuel
  induction fuel with
  | zero =>
      intro tries ht
      have htr : tries = 9999 := by omega
      subst htr
      rw [placeFoodGo_unfold, if_neg fun hc => absurd hc.2 (by omega)]
  | succ n ih =>
      intro tries ht
      rw [placeFoodGo_unfold, if_pos ⟨hall tries, by omega⟩]
      exact ih (tries + 1) (by omega)

/-- Helper: when some draw with index at most 9999 (and at least the
current try counter) is unoccupied, the loop stops at the first such draw,
so its result is unoccupied. -/
theorem placeFoodGo_finds_unoccupied (snake : List Cell) (draw : Nat → Cell) :
    ∀ fuel tries, tries + fuel = 9999 →
      (∃ t, tries ≤ t ∧ t ≤ 9999 ∧ occupied snake (draw t) = false) →
      occupied snake (placeFoodGo snake draw tries) = false := by
  intro fuel
  induction fuel with
  | zero =>
      intro tries ht hex
      obtain ⟨t, h1, h2, h3⟩ := hex
      have hts : t = tries := by omega
      rw [hts] at h3
      rw [placeFoodGo_unfold, if_neg fun hc => absurd hc.2 (by omega)]
      exact h3
  | succ n ih =>
      intro tries ht hex
      obtain ⟨t, h1, h2, h3⟩ := hex
      by_cases hocc : occupied snake (draw tries) = true
      · rw [placeFoodGo_unfold, if_pos ⟨hocc, by omega⟩]
        refine ih (tries + 1) (by omega) ⟨t, ?_, h2, h3⟩
        by_contra hlt
        have hts : t = tries := by omega
        rw [hts] at h3
        simp [h3] at hocc
      · rw [placeFoodGo_unfold, if_neg fun hc => absurd hc.1 hocc]
        exact Bool.eq_false_iff.mpr hocc

/-- Draw stream used by the C9 counterexample: every candidate is (0,0). -/
def drawZero : Nat → Cell := fun _ => ⟨0, 0⟩

/-- Counterexample for C9: from gEat (snake [(0,0),(1,0)], food (2,0)), a
tick that eats calls placeFood on the grown snake [(0,0),(1,0),(2,0)] with
a stream whose every draw is the occupied cell (0,0). The retry cap is
exhausted, and food ends at (0,0) — a snake cell — rather than at its
prior (pre-call) value (2,0): both halves of the claim fail here. -/
theorem placeFood_cap_counterexample :
    (tick drawZero gEat).food = ⟨0, 0⟩ ∧
    (⟨0, 0⟩ : Cell) ∈ (tick drawZero gEat).snake ∧
    gEat.food = ⟨2, 0⟩ ∧ (⟨2, 0⟩ : Cell) ≠ (⟨0, 0⟩ : Cell) := by
  have h := tick_eat_fields drawZero gEat rfl rfl (by decide) (by decide) (by decide)
  obtain ⟨-, -, -, hfood, hsnake, -⟩ := h
  have hlist : gEat.snake ++ [nextHead gEat] = [⟨0, 0⟩, ⟨1, 0⟩, ⟨2, 0⟩] := by decide
  refine ⟨?_, ?_, rfl, by decide⟩
  · rw [hfood, hlist]
    have hall : ∀ t, occupied [(⟨0, 0⟩ : Cell), ⟨1, 0⟩, ⟨2, 0⟩] (drawZero t) = true :=
      fun _ => rfl
    exact placeFoodGo_all_occupied _ _ hall 9999 0 rfl
  · rw [hsnake, hlist]
    decide

/-- C9 (amended): when some draw among the first 10000 candidates is
unoccupied, placeFood returns an unoccupied cell, so the food is not on
the snake; when all 10000 draws are occupied, the retry cap is exhausted
and placeFood gives up, returning the last drawn cell (draw 9999) — which
may lie on the snake — rather than retaining any prior food value. -/
theorem placeFood_spec (snake : List Cell) (draw : Nat → Cell) :
    ((∃ t, t ≤ 9999 ∧ occupied snake (draw t) = false) →
        occupied snake (placeFood snake draw) = false) ∧
    ((∀ t, occupied snake (draw t) = true) → placeFood snake draw = draw 9999) := by
  constructor
  · rintro ⟨t, ht, hfree⟩
    exact placeFoodGo_finds_unoccupied snake draw 9999 0 rfl ⟨t, Nat.zero_le t, ht, hfree⟩
  · intro hall
    exact placeFoodGo_all_occupied snake draw hall 9999 0 rfl

/-- Witness for C9 (amended): with snake [(0,0)], a stream drawing (5,5)
immediately yields an unoccupied food cell, and a stream drawing only the
occupied cell (0,0) exhausts the cap and returns draw 9999 = (0,0). -/
theorem placeFood_spec_witness :
    occupied [(⟨0, 0⟩ : Cell)] (placeFood [⟨0, 0⟩] drawFive) = false ∧
    placeFood [(⟨0, 0⟩ : Cell)] drawZero = drawZero 9999 :=
  ⟨(placeFood_spec [⟨0, 0⟩] drawFive).1 ⟨0, by omega, rfl⟩,
   (placeFood_spec [⟨0, 0⟩] drawZero).2 fun _ => rfl⟩

/-- The snake invariant of the spec: every snake cell passes the wall test
and no cell repeats. -/
def SnakeInv (g : GameState) : Prop :=
  (∀ c ∈ g.snake, outOfBounds c = false) ∧ g.snake.Nodup

theorem startSnake_eq : startSnake = [⟨10, 12⟩, ⟨11, 12⟩, ⟨12, 12⟩, ⟨13, 12⟩] := by
  decide

theorem SnakeInv_resetGame (draw : Nat → Cell) (g : GameState) :
    SnakeInv (resetGame draw g) := by
  constructor
  · show ∀ c ∈ startSnake, outOfBounds c = false
    rw [startSnake_eq]
    intro c hc
    fin_cases hc <;> decide
  · show startSnake.Nodup
    rw [startSnake_eq]
    decide

theorem enqueue_snake_eq (code : String) (g : GameState) :
    (enqueueDirectionFromKey code g).snake = g.snake := by
  unfold enqueueDirectionFromKey
  split
  · rfl
  · split <;> rfl

theorem togglePause_snake_eq (g : GameState) :
    (togglePause g).snake = g.snake := by
  unfold togglePause
  split <;> rfl

theorem SnakeInv_tick (draw : Nat → Cell) (g : GameState) (h : SnakeInv g) :
    SnakeInv (tick draw g) := by
  by_cases hpo : (g.isPaused || g.isGameOver) = true
  · simp only [tick, hpo, if_true]
    exact h
  · rw [Bool.not_eq_true] at hpo
    by_cases hw : outOfBounds (nextHead g) = true
    · simp only [tick, hpo, hw, Bool.false_eq_true, if_false, if_true]
      exact h
    · rw [Bool.not_eq_true] at hw
      by_cases hocc : occupied g.snake (nextHead g) = true
      · simp only [tick, hpo, hw, hocc, Bool.false_eq_true, if_false, if_true]
        exact h
      · rw [Bool.not_eq_true] at hocc
        have hnm : nextHead g ∉ g.snake := (occupied_eq_false_iff _ _).mp hocc
        have hb : ∀ c ∈ g.snake ++ [nextHead g], outOfBounds c = false := by
          intro c hc
          rcases List.mem_append.mp hc with h1 | h2
          · exact h.1 c h1
          · rw [List.mem_singleton.mp h2]
            exact hw
        have hnd : (g.snake ++ [nextHead g]).Nodup := by
          simp [List.nodup_append, h.2, hnm]
        by_cases hate : ((nextHead g).x == g.food.x && ((nextHead g).y == g.food.y)) = true
        · simp only [tick, hpo, hw, hocc, hate, Bool.false_eq_true, if_false, if_true]
          split <;> exact ⟨hb, hnd⟩
        · rw [Bool.not_eq_true] at hate
          simp only [tick, hpo, hw, hocc, hate, Bool.false_eq_true, if_false, if_true]
          have hbt : ∀ c ∈ (g.snake ++ [nextHead g]).tail, outOfBounds c = false :=
            fun c hc => hb c (List.mem_of_mem_tail hc)
          have hndt : (g.snake ++ [nextHead g]).tail.Nodup :=
            hnd.sublist (List.tail_sublist _)
          split <;> exact ⟨hbt, hndt⟩

theorem Reachable_SnakeInv {g : GameState} (h : Reachable g) : SnakeInv g := by
  induction h with
  | restart draw g => exact SnakeInv_resetGame draw g
  | key code _ ih =>
      exact ⟨by rw [enqueue_snake_eq]; exact ih.1, by rw [enqueue_snake_eq]; exact ih.2⟩
  | step draw _ ih => exact SnakeInv_tick draw _ ih
  | pause _ ih =>
      exact ⟨by rw [togglePause_snake_eq]; exact ih.1, by rw [togglePause_snake_eq]; exact ih.2⟩

/-- C5: in every state reachable from a restart through key presses,
ticks, pause toggles and further restarts, every snake cell is inside the
grid (the wall test rejects none of them), and — in particular whenever
the session is Running or Paused, that is, not over — the snake cells are
pairwise distinct. -/
theorem reachable_snake_invariant (g : GameState) (h : Reachable g) :
    (∀ c ∈ g.snake, outOfBounds c = false) ∧
    (g.isGameOver = false → g.snake.Nodup) :=
  ⟨(Reachable_SnakeInv h).1, fun _ => (Reachable_SnakeInv h).2⟩

/-- Witness for C5: the reachable state resetGame drawFive gScenario1 has
its cell (10,12) inside the grid and a duplicate-free snake. -/
theorem reachable_snake_invariant_witness :
    outOfBounds ⟨10, 12⟩ = false ∧
    (resetGame drawFive gScenario1).snake.Nodup :=
  ⟨(reachable_snake_invariant _ (Reachable.restart drawFive gScenario1)).1
      ⟨10, 12⟩ (by rw [show (resetGame drawFive gScenario1).snake = startSnake from rfl,
                       startSnake_eq]; decide),
   (reachable_snake_invariant _ (Reachable.restart drawFive gScenario1)).2 rfl⟩

/-- Helper: closed form of the accumulator while loop for a positive step
interval. It runs exactly floor(accumulator / stepInterval) iterations,
applying f once per iteration and subtracting the interval each time. -/
theorem accumLoop_spec (s : ℚ) (hs : 0 < s) (f : GameState → GameState)
    (acc : ℚ) (g : GameState) :
    accumLoop s f acc g = (acc - (⌊acc / s⌋₊ : ℚ) * s, f^[⌊acc / s⌋₊] g) := by
  have key : ∀ (n : Nat) (acc : ℚ) (g : GameState), ⌊acc / s⌋₊ = n →
      accumLoop s f acc g = (acc - (n : ℚ) * s, f^[n] g) := by
    intro n
    induction n with
    | zero =>
        intro acc g hn
        have hlt : acc < s := (div_lt_one hs).mp (Nat.floor_eq_zero.mp hn)
        rw [accumLoop, dif_neg (fun hc => absurd hc.2 (not_le.mpr hlt))]
        simp
    | succ n ih =>
        intro acc g hn
        have h1 : (1 : ℚ) ≤ acc / s := (Nat.one_le_floor_iff _).mp (by omega)
        have hle : s ≤ acc := (one_le_div hs).mp h1
        have hfl : ⌊(acc - s) / s⌋₊ = n := by
          rw [sub_div, div_self (ne_of_gt hs), Nat.floor_sub_one, hn]
          omega
        rw [accumLoop, dif_pos ⟨hs, hle⟩, ih _ (f g) hfl, Prod.mk.injEq]
        constructor
        · push_cast
          ring
        · exact (Function.iterate_succ_apply f n g).symm
  exact key _ acc g rfl

/-- Helper: closed form of one animate frame when the speed at the start
of the frame is positive. The step count and every subtraction use the
interval 1 / movesPerSecond read from the game state as it was when the
frame began. -/
theorem animateFrame_closed_form (draw : Nat → Cell) (ts : ℚ) (d : DriverState)
    (hm : 0 < d.game.movesPerSecond) :
    animateFrame draw ts d =
      ⟨ts,
       d.accumulator + min (1 / 10) ((ts - d.lastTime) / 1000) -
         (⌊(d.accumulator + min (1 / 10) ((ts - d.lastTime) / 1000)) /
             (1 / (d.game.movesPerSecond : ℚ))⌋₊ : ℚ) * (1 / (d.game.movesPerSecond : ℚ)),
       (tick draw)^[⌊(d.accumulator + min (1 / 10) ((ts - d.lastTime) / 1000)) /
             (1 / (d.game.movesPerSecond : ℚ))⌋₊] d.game⟩ := by
  have hs : 0 < 1 / (d.game.movesPerSecond : ℚ) :=
    one_div_pos.mpr (by exact_mod_cast hm)
  simp only [animateFrame, accumLoop_spec _ hs]

/-- C7: each frame, the driver clamps the frame delta to 0.1 s, adds it to
the accumulator, and runs one tick per whole step interval contained in
the accumulator, subtracting the interval each time; when the loop exits
the accumulator is below the step interval. -/
theorem animateFrame_accumulator_spec (draw : Nat → Cell) (ts : ℚ) (d : DriverState)
    (hm : 0 < d.game.movesPerSecond) :
    ∃ n : Nat,
      animateFrame draw ts d =
        ⟨ts,
         d.accumulator + min (1 / 10) ((ts - d.lastTime) / 1000) -
           (n : ℚ) * (1 / (d.game.movesPerSecond : ℚ)),
         (tick draw)^[n] d.game⟩ ∧
      d.accumulator + min (1 / 10) ((ts - d.lastTime) / 1000) -
          (n : ℚ) * (1 / (d.game.movesPerSecond : ℚ)) <
        1 / (d.game.movesPerSecond : ℚ) := by
  have hs : 0 < 1 / (d.game.movesPerSecond : ℚ) :=
    one_div_pos.mpr (by exact_mod_cast hm)
  refine ⟨⌊(d.accumulator + min (1 / 10) ((ts - d.lastTime) / 1000)) /
      (1 / (d.game.movesPerSecond : ℚ))⌋₊, animateFrame_closed_form draw ts d hm, ?_⟩
  have h1 := Nat.lt_floor_add_one
    ((d.accumulator + min (1 / 10) ((ts - d.lastTime) / 1000)) /
      (1 / (d.game.movesPerSecond : ℚ)))
  rw [div_lt_iff₀ hs] at h1
  nlinarith [h1]

/-- Driver state used by the C7 witness: accumulator 0, last frame at 0,
game at the start position. -/
def dFrame : DriverState := ⟨0, 0, gScenario1⟩

/-- Witness for C7: at dFrame with ts = 1000 the speed 6 is positive, and
the frame obeys the accumulator characterization. -/
theorem animateFrame_accumulator_spec_witness :
    ∃ n : Nat,
      animateFrame drawFive 1000 dFrame =
        ⟨1000,
         dFrame.accumulator + min (1 / 10) ((1000 - dFrame.lastTime) / 1000) -
           (n : ℚ) * (1 / (dFrame.game.movesPerSecond : ℚ)),
         (tick drawFive)^[n] dFrame.game⟩ ∧
      dFrame.accumulator + min (1 / 10) ((1000 - dFrame.lastTime) / 1000) -
          (n : ℚ) * (1 / (dFrame.game.movesPerSecond : ℚ)) <
        1 / (dFrame.game.movesPerSecond : ℚ) :=
  animateFrame_accumulator_spec drawFive 1000 dFrame (by decide)

/-- C10: within one frame, every simulation step triggered by the
accumulator loop uses the step interval 1 / movesPerSecond computed from
the speed in effect at the start of the frame: the closed form fixes the
step count and all subtractions to that interval, so a speed increase
caused by eating food during the frame only takes effect from the next
frame on. -/
theorem animateFrame_frameStart_interval (draw : Nat → Cell) (ts : ℚ) (d : DriverState)
    (hm : 0 < d.game.movesPerSecond) :
    (animateFrame draw ts d).accumulator =
      d.accumulator + min (1 / 10) ((ts - d.lastTime) / 1000) -
        (⌊(d.accumulator + min (1 / 10) ((ts - d.lastTime) / 1000)) /
            (1 / (d.game.movesPerSecond : ℚ))⌋₊ : ℚ) * (1 / (d.game.movesPerSecond : ℚ)) ∧
    (animateFrame draw ts d).game =
      (tick draw)^[⌊(d.accumulator + min (1 / 10) ((ts - d.lastTime) / 1000)) /
          (1 / (d.game.movesPerSecond : ℚ))⌋₊] d.game := by
  rw [animateFrame_closed_form draw ts d hm]
  exact ⟨rfl, rfl⟩

/-- Driver state used by the C10 witness: accumulator 21/100, last frame
at 0, game gEat about to eat and speed up from 6 to 7. -/
def dDemo : DriverState := ⟨0, 21 / 100, gEat⟩

/-- Witness for C10: at dDemo with ts = 100 the pending time is
21/100 + 1/10 = 31/100, which at the frame-start interval 1/6 yields one
step; that step eats and raises the speed to 7, yet the frame leaves
43/300 in the accumulator — at least the new interval 1/7, showing the
shorter interval is not applied within the frame. -/
theorem animateFrame_frameStart_interval_witness :
    (animateFrame drawFive 100 dDemo).accumulator = 43 / 300 ∧
    (animateFrame drawFive 100 dDemo).game.movesPerSecond = 7 ∧
    (1 / 7 : ℚ) ≤ 43 / 300 := by
  have h := animateFrame_frameStart_interval drawFive 100 dDemo (by decide)
  have hacc : dDemo.accumulator + min (1 / 10) (((100 : ℚ) - dDemo.lastTime) / 1000) =
      31 / 100 := by
    simp only [dDemo]
    norm_num
  have hfl : ⌊(31 / 100 : ℚ) / (1 / (dDemo.game.movesPerSecond : ℚ))⌋₊ = 1 := by
    have : (dDemo.game.movesPerSecond : ℚ) = 6 := by norm_num [dDemo, gEat]
    rw [this, Nat.floor_eq_iff (by norm_num)]
    norm_num
  obtain ⟨ha, hg⟩ := h
  rw [hacc, hfl] at ha hg
  refine ⟨?_, ?_, by norm_num⟩
  · rw [ha]
    have : (dDemo.game.movesPerSecond : ℚ) = 6 := by norm_num [dDemo, gEat]
    rw [this]
    norm_num
  · rw [hg, Function.iterate_one]
    have he := tick_eat_fields drawFive gEat rfl rfl (by decide) (by decide) (by decide)
    exact he.2.2.1

end Snake3D
